import Mathlib

/-!
# PtyManager verification

A shallow embedding of the PTY session registry of the extraterm backend
(`PtyManager` in the main process, together with the identical
`cleanUpPtyWindow`/`closePty` logic in `TerminalWindow`), and proofs of the
lifecycle, cleanup and error-handling properties of its specification.

Modelling conventions:
* The JavaScript `Map<number, PtyTuple>` is modelled as an insertion-ordered
  association list with the exact `get`/`set`/`delete` semantics of a JS map
  (`set` replaces in place keeping the entry position, `delete` removes the
  entry, `get` finds by key).
* A `Pty` handle is modelled by its identity (`ref`) plus the value its
  `getCwd()` query returns.  Calls that act on the outside world
  (`destroy`, `write`, `resize`, `permittedDataSize`, logging a warning,
  sending an envelope over the Electron channel) are recorded as explicit
  effects/events in the order the code performs them.
* `PtyConnector.spawn` is an external collaborator: it is passed in as a
  function returning `Except Unit Pty`; a thrown spawn error is the
  `Except.error` case and aborts `createPty` exactly where the source
  statement `this.ptyConnector.spawn(...)` sits (after the option
  computation, before any mutation of `ptyCounter`/`ptyMap`).
* The event handlers that `createPty` registers on the new `Pty`
  (`onData`, `onExit`) are modelled as standalone functions of the values
  the closures capture (`sender.isDestroyed()`, `ptyId`, `ptyTerm`) plus the
  manager state they act on when they fire.
* JS truthiness is preserved where the source relies on it:
  `if (fromPtyId)` is false for `0`/`undefined`, and `if (cwd)` is false for
  an empty string.
-/

/-- A live pseudo-terminal handle: its identity and what `getCwd()` reports. -/
structure Pty where
  ref : Nat
  cwd : Option String
deriving DecidableEq, Repr

/-- `Pty.getCwd()` of the source. -/
def Pty.getCwd (p : Pty) : Option String :=
  p.cwd

/-- The per-session record stored in `ptyMap` (interface `PtyTuple`). -/
structure PtyTuple where
  windowId : Nat
  ptyTerm : Pty
  outputBufferSize : Nat
  outputPaused : Bool
deriving DecidableEq, Repr

/-- Observable side effects of manager operations, in execution order. -/
inductive Effect where
  | destroy (r : Nat)
  | write (r : Nat) (data : String)
  | resize (r : Nat) (cols : Nat) (rows : Nat)
  | permittedDataSize (r : Nat) (size : Nat)
  | warn (source : String)
deriving DecidableEq, Repr

/-- Envelopes the manager pushes over the channel to the owning front end. -/
inductive Msg where
  | ptyOutput (id : Nat) (data : String)
  | ptyClose (id : Nat)
deriving DecidableEq, Repr

/-- One step of an event handler: either an envelope sent over the channel
or a side effect on a `Pty`. -/
inductive Event where
  | sent (m : Msg)
  | eff (e : Effect)
deriving DecidableEq, Repr

/-- `Map.get`: the value stored under `k`, if any. -/
def mapGet (m : List (Nat × PtyTuple)) (k : Nat) : Option PtyTuple :=
  match m with
  | [] => none
  | p :: rest => if p.1 = k then some p.2 else mapGet rest k

/-- `Map.set`: replace the entry for `k` in place, or append a new one. -/
def mapSet (m : List (Nat × PtyTuple)) (k : Nat) (v : PtyTuple) :
    List (Nat × PtyTuple) :=
  match m with
  | [] => [(k, v)]
  | p :: rest => if p.1 = k then (k, v) :: rest else p :: mapSet rest k v

/-- `Map.delete`: remove the entry stored under `k`. -/
def mapDelete (m : List (Nat × PtyTuple)) (k : Nat) : List (Nat × PtyTuple) :=
  m.filter (fun p => decide (p.1 ≠ k))

/-- Keys of a JS map are pairwise distinct; holds of every reachable
`ptyMap` and is assumed where a proof needs it. -/
def keysNodup (m : List (Nat × PtyTuple)) : Prop :=
  (m.map Prod.fst).Nodup

instance (m : List (Nat × PtyTuple)) : Decidable (keysNodup m) :=
  inferInstanceAs (Decidable ((m.map Prod.fst).Nodup))

/-- Lookup in an environment mapping (JS object property read). -/
def envLookup (env : List (String × String)) (k : String) : Option String :=
  match env with
  | [] => none
  | p :: rest => if p.1 = k then some p.2 else envLookup rest k

/-- JS object property write `env[k] = v`: overwrite in place or append. -/
def envSet (env : List (String × String)) (k v : String) :
    List (String × String) :=
  match env with
  | [] => [(k, v)]
  | p :: rest => if p.1 = k then (k, v) :: rest else p :: envSet rest k v

/-- The `PtyOptions` record handed to `PtyConnector.spawn`. -/
structure PtyOptions where
  name : String
  cols : Nat
  rows : Nat
  env : List (String × String)
  cwd : Option String
deriving DecidableEq, Repr

/-- The state of one `PtyManager`: the session registry and the id counter. -/
structure PtyManagerState where
  ptyMap : List (Nat × PtyTuple)
  ptyCounter : Nat
deriving DecidableEq, Repr

/-- The state of a freshly constructed `PtyManager` (`ptyCounter = 0`,
empty map). -/
def initialState : PtyManagerState :=
  ⟨[], 0⟩

/-- One call to `PtyConnector.spawn`, as observed by the connector. -/
structure SpawnCall where
  file : String
  args : List String
  options : PtyOptions
deriving DecidableEq, Repr

/-- Outcome of `createPty`: the returned id (or the propagated spawn
error), the manager state after the call, and the single spawn call the
body made. -/
structure CreateResult where
  result : Except Unit Nat
  state : PtyManagerState
  spawnCall : SpawnCall
deriving Repr

/-- The `ptyOptions` value `createPty` builds before spawning: base options
with `TERM` forced to `"xterm"`, plus the working directory inherited from
`fromPtyId` when that id is truthy, maps to a live session whose `getCwd()`
is truthy (a non-empty string). -/
def computePtyOptions (st : PtyManagerState) (env : List (String × String))
    (cols rows : Nat) (fromPtyId : Option Nat) : PtyOptions :=
  let base : PtyOptions := ⟨"xterm", cols, rows, envSet env "TERM" "xterm", none⟩
  match fromPtyId with
  | none => base
  | some fid =>
    if fid = 0 then base
    else
      match mapGet st.ptyMap fid with
      | none => base
      | some fromPty =>
        match fromPty.ptyTerm.getCwd with
        | none => base
        | some c => if c = "" then base else { base with cwd := some c }

/-- `PtyManager.createPty`.  `senderWindowId` is
`BrowserWindow.fromWebContents(sender).id`; `spawn` is the
`PtyConnector.spawn` collaborator.  On spawn success the counter is
incremented, the new tuple `{windowId, ptyTerm, outputBufferSize: 0,
outputPaused: true}` is registered under the new id and the id returned;
a spawn error propagates before any mutation. -/
def createPty (spawn : String → List String → PtyOptions → Except Unit Pty)
    (st : PtyManagerState) (senderWindowId : Nat) (file : String)
    (args : List String) (env : List (String × String)) (cols rows : Nat)
    (fromPtyId : Option Nat) : CreateResult :=
  match spawn file args (computePtyOptions st env cols rows fromPtyId) with
  | Except.error e =>
    ⟨Except.error e, st, ⟨file, args, computePtyOptions st env cols rows fromPtyId⟩⟩
  | Except.ok ptyTerm =>
    ⟨Except.ok (st.ptyCounter + 1),
      ⟨mapSet st.ptyMap (st.ptyCounter + 1) ⟨senderWindowId, ptyTerm, 0, true⟩,
        st.ptyCounter + 1⟩,
      ⟨file, args, computePtyOptions st env cols rows fromPtyId⟩⟩

/-- `PtyManager.closePty`: destroy the session's pty and deregister it;
silently do nothing when the id is absent. -/
def closePty (st : PtyManagerState) (id : Nat) :
    PtyManagerState × List Effect :=
  match mapGet st.ptyMap id with
  | none => (st, [])
  | some tup =>
    ({ st with ptyMap := mapDelete st.ptyMap id },
      [Effect.destroy tup.ptyTerm.ref])

/-- The loop body sequence of `cleanUpPtyWindow`: walk the snapshot of the
keys, and `closePty` every key whose tuple records the closing window. -/
def cleanUpGo (windowId : Nat) (keys : List Nat) (st : PtyManagerState)
    (acc : List Effect) : PtyManagerState × List Effect :=
  match keys with
  | [] => (st, acc)
  | key :: rest =>
    match mapGet st.ptyMap key with
    | some tup =>
      if tup.windowId = windowId then
        let r := closePty st key
        cleanUpGo windowId rest r.1 (acc ++ r.2)
      else
        cleanUpGo windowId rest st acc
    | none => cleanUpGo windowId rest st acc

/-- `PtyManager.cleanUpPtyWindow` (and the identical
`TerminalWindow.cleanUpPtyWindow`): destroy every session owned by the
closing window. -/
def cleanUpPtyWindow (st : PtyManagerState) (windowId : Nat) :
    PtyManagerState × List Effect :=
  cleanUpGo windowId (st.ptyMap.map Prod.fst) st []

/-- `PTY_INPUT` payload. -/
structure PtyInputMsg where
  id : Nat
  data : String
deriving DecidableEq, Repr

/-- `PTY_RESIZE` payload. -/
structure PtyResizeMsg where
  id : Nat
  columns : Nat
  rows : Nat
deriving DecidableEq, Repr

/-- `PTY_OUTPUT_BUFFER_SIZE` payload. -/
structure PtyOutputBufferSizeMsg where
  id : Nat
  size : Nat
deriving DecidableEq, Repr

/-- `PTY_CREATE` request payload (`CreatePtyRequestMessage`). -/
structure CreatePtyRequestMessage where
  command : String
  args : List String
  columns : Nat
  rows : Nat
  env : List (String × String)
  fromPtyId : Option Nat
deriving DecidableEq, Repr

/-- `PTY_CREATED` reply payload (`CreatedPtyMessage`). -/
structure CreatedPtyMessage where
  id : Nat
deriving DecidableEq, Repr

/-- `PtyManager.handlePtyInput`: write to the session's pty, or log a
warning and drop the message when the id is unknown. -/
def handlePtyInput (st : PtyManagerState) (msg : PtyInputMsg) :
    PtyManagerState × List Effect :=
  match mapGet st.ptyMap msg.id with
  | none => (st, [Effect.warn "handlePtyInput"])
  | some tup => (st, [Effect.write tup.ptyTerm.ref msg.data])

/-- `PtyManager.handlePtyOutputBufferSize`. -/
def handlePtyOutputBufferSize (st : PtyManagerState)
    (msg : PtyOutputBufferSizeMsg) : PtyManagerState × List Effect :=
  match mapGet st.ptyMap msg.id with
  | none => (st, [Effect.warn "handlePtyOutputBufferSize"])
  | some tup => (st, [Effect.permittedDataSize tup.ptyTerm.ref msg.size])

/-- `PtyManager.handlePtyResize`. -/
def handlePtyResize (st : PtyManagerState) (msg : PtyResizeMsg) :
    PtyManagerState × List Effect :=
  match mapGet st.ptyMap msg.id with
  | none => (st, [Effect.warn "handlePtyResize"])
  | some tup => (st, [Effect.resize tup.ptyTerm.ref msg.columns msg.rows])

/-- `PtyManager.handlePtyCloseRequest`. -/
def handlePtyCloseRequest (st : PtyManagerState) (id : Nat) :
    PtyManagerState × List Effect :=
  match mapGet st.ptyMap id with
  | none => (st, [Effect.warn "handlePtyCloseRequest"])
  | some _ => closePty st id

/-- `PtyManager.handlePtyCreate`: run `createPty` on the request fields and
wrap the new id into the `PTY_CREATED` reply (a spawn error propagates). -/
def handlePtyCreate (spawn : String → List String → PtyOptions → Except Unit Pty)
    (st : PtyManagerState) (senderWindowId : Nat)
    (msg : CreatePtyRequestMessage) :
    Except Unit (CreatedPtyMessage × PtyManagerState) :=
  let r := createPty spawn st senderWindowId msg.command msg.args msg.env
    msg.columns msg.rows msg.fromPtyId
  match r.result with
  | Except.error e => Except.error e
  | Except.ok id => Except.ok (⟨id⟩, r.state)

/-- The `onData` listener `createPty` registers: forward the chunk as a
`PTY_OUTPUT` envelope unless the sender has been destroyed. -/
def onDataHandler (senderDestroyed : Bool) (ptyId : Nat) (data : String) :
    List Event :=
  if senderDestroyed then [] else [Event.sent (Msg.ptyOutput ptyId data)]

/-- The events produced when a sequence of chunks arrives, in delivery
order. -/
def onDataSeq (senderDestroyed : Bool) (ptyId : Nat) (chunks : List String) :
    List Event :=
  (chunks.map (onDataHandler senderDestroyed ptyId)).flatten

/-- The `onExit` listener `createPty` registers: send a `PTY_CLOSE` envelope
(unless the sender has been destroyed), then destroy the pty and deregister
the session. -/
def onExitHandler (senderDestroyed : Bool) (ptyId : Nat) (ptyTerm : Pty)
    (st : PtyManagerState) : List Event × PtyManagerState :=
  ((if senderDestroyed then [] else [Event.sent (Msg.ptyClose ptyId)]) ++
      [Event.eff (Effect.destroy ptyTerm.ref)],
    { st with ptyMap := mapDelete st.ptyMap ptyId })

/-! ## Concrete inputs used by the witnesses -/

/-- A spawn collaborator that always succeeds with the pty handle `⟨0, none⟩`. -/
def spawnOk : String → List String → PtyOptions → Except Unit Pty :=
  fun _ _ _ => Except.ok ⟨0, none⟩

/-- A spawn collaborator that always fails (executable missing). -/
def spawnFail : String → List String → PtyOptions → Except Unit Pty :=
  fun _ _ _ => Except.error ()

/-- A session tuple owned by window 5 whose pty reports cwd `/home`. -/
def exCwdTuple : PtyTuple :=
  ⟨5, ⟨3, some "/home"⟩, 0, true⟩

/-- A one-session manager state holding `exCwdTuple` under id 1. -/
def exCwdState : PtyManagerState :=
  ⟨[(1, exCwdTuple)], 1⟩

/-- The entries a cleanup walk over the key snapshot `keys` does not
destroy. -/
def untouched (w : Nat) (keys : List Nat) (p : Nat × PtyTuple) : Bool :=
  decide (¬ (p.1 ∈ keys ∧ p.2.windowId = w))

/-- The destroy effect that closing key `k` during a cleanup of window `w`
produces, if any. -/
def destroyEffectAt (m : List (Nat × PtyTuple)) (w : Nat) (k : Nat) :
    Option Effect :=
  match mapGet m k with
  | some tup =>
    if tup.windowId = w then some (Effect.destroy tup.ptyTerm.ref) else none
  | none => none

/-- Three sessions over two windows, used to witness the cleanup theorem. -/
def exTwoWinState : PtyManagerState :=
  ⟨[(1, ⟨5, ⟨10, none⟩, 0, true⟩), (2, ⟨6, ⟨11, none⟩, 3, false⟩),
    (3, ⟨5, ⟨12, none⟩, 7, false⟩)], 3⟩

/-! ## Session id allocation (C8) -/

/-- One externally triggered `PtyManager` operation. -/
inductive Op where
  | create (wid : Nat) (file : String) (args : List String)
      (env : List (String × String)) (cols : Nat) (rows : Nat)
      (fromPtyId : Option Nat)
  | close (id : Nat)
  | cleanUp (wid : Nat)
  | input (m : PtyInputMsg)
  | resize (m : PtyResizeMsg)
  | outputBufferSize (m : PtyOutputBufferSizeMsg)
  | closeRequest (id : Nat)

/-- Run one operation; the second component is the id a successful
`createPty` returned, if the operation was a create. -/
def runOp (spawn : String → List String → PtyOptions → Except Unit Pty)
    (st : PtyManagerState) : Op → PtyManagerState × Option Nat
  | Op.create wid file args env cols rows fid =>
    match (createPty spawn st wid file args env cols rows fid).result with
    | Except.ok id =>
      ((createPty spawn st wid file args env cols rows fid).state, some id)
    | Except.error _ => (st, none)
  | Op.close id => ((closePty st id).1, none)
  | Op.cleanUp wid => ((cleanUpPtyWindow st wid).1, none)
  | Op.input m => ((handlePtyInput st m).1, none)
  | Op.resize m => ((handlePtyResize st m).1, none)
  | Op.outputBufferSize m => ((handlePtyOutputBufferSize st m).1, none)
  | Op.closeRequest id => ((handlePtyCloseRequest st id).1, none)

/-- Run a sequence of operations, collecting the ids the successful creates
returned, in call order. -/
def runOps (spawn : String → List String → PtyOptions → Except Unit Pty)
    (st : PtyManagerState) : List Op → PtyManagerState × List Nat
  | [] => (st, [])
  | op :: ops =>
    match (runOp spawn st op).2 with
    | some id =>
      ((runOps spawn (runOp spawn st op).1 ops).1,
        id :: (runOps spawn (runOp spawn st op).1 ops).2)
    | none => runOps spawn (runOp spawn st op).1 ops

/-- A short operation sequence used to witness the id-allocation theorem. -/
def exOps : List Op :=
  [Op.create 1 "bash" [] [] 80 24 none, Op.close 1,
    Op.create 1 "sh" [] [] 80 24 none]

/-! ## Basic map lemmas -/

theorem mapGet_nil (k : Nat) : mapGet [] k = none := rfl

theorem mapGet_cons (p : Nat × PtyTuple) (m : List (Nat × PtyTuple)) (k : Nat) :
    mapGet (p :: m) k = if p.1 = k then some p.2 else mapGet m k := rfl

theorem mapGet_delete_self (m : List (Nat × PtyTuple)) (k : Nat) :
    mapGet (mapDelete m k) k = none := by
  induction m with
  | nil => rfl
  | cons p rest ih =>
    by_cases h : p.1 = k
    · simpa [mapDelete, List.filter, h] using ih
    · simpa [mapDelete, List.filter, h, mapGet_cons] using ih

theorem mapDelete_cons (p : Nat × PtyTuple) (m : List (Nat × PtyTuple))
    (k : Nat) :
    mapDelete (p :: m) k =
      if p.1 = k then mapDelete m k else p :: mapDelete m k := by
  by_cases h : p.1 = k <;> simp [mapDelete, List.filter_cons, h]

theorem mapGet_delete_ne (m : List (Nat × PtyTuple)) (k k' : Nat)
    (h : k' ≠ k) : mapGet (mapDelete m k) k' = mapGet m k' := by
  induction m with
  | nil => rfl
  | cons p rest ih =>
    rw [mapDelete_cons]
    by_cases hp : p.1 = k
    · have hp' : p.1 ≠ k' := by
        rw [hp]
        exact Ne.symm h
      rw [if_pos hp, ih, mapGet_cons, if_neg hp']
    · rw [if_neg hp, mapGet_cons, mapGet_cons, ih]

theorem mapGet_set_self (m : List (Nat × PtyTuple)) (k : Nat) (v : PtyTuple) :
    mapGet (mapSet m k v) k = some v := by
  induction m with
  | nil => simp [mapSet, mapGet]
  | cons p rest ih =>
    by_cases h : p.1 = k
    · simp [mapSet, h, mapGet]
    · simp [mapSet, h, mapGet_cons, ih]

theorem envLookup_envSet_self (env : List (String × String)) (k v : String) :
    envLookup (envSet env k v) k = some v := by
  induction env with
  | nil => simp [envSet, envLookup]
  | cons p rest ih =>
    by_cases h : p.1 = k
    · simp [envSet, h, envLookup]
    · simp [envSet, h, envLookup, ih]

theorem envLookup_envSet_ne (env : List (String × String)) (k v k' : String)
    (h : k' ≠ k) : envLookup (envSet env k v) k' = envLookup env k' := by
  induction env with
  | nil => simp [envSet, envLookup, Ne.symm h]
  | cons p rest ih =>
    by_cases hp : p.1 = k
    · have hp' : p.1 ≠ k' := by
        rw [hp]
        exact Ne.symm h
      simp [envSet, hp, envLookup, hp', Ne.symm h]
    · simp [envSet, hp, envLookup, ih]

/-! ## Helper lemmas about `createPty` -/

theorem createPty_spawnCall
    (spawn : String → List String → PtyOptions → Except Unit Pty)
    (st : PtyManagerState) (wid : Nat) (file : String) (args : List String)
    (env : List (String × String)) (cols rows : Nat) (fid : Option Nat) :
    (createPty spawn st wid file args env cols rows fid).spawnCall
      = ⟨file, args, computePtyOptions st env cols rows fid⟩ := by
  cases hs : spawn file args (computePtyOptions st env cols rows fid) <;>
    simp [createPty, hs]

theorem computePtyOptions_env (st : PtyManagerState)
    (env : List (String × String)) (cols rows : Nat) (fid : Option Nat) :
    (computePtyOptions st env cols rows fid).env = envSet env "TERM" "xterm" := by
  cases fid with
  | none => rfl
  | some f =>
    by_cases hf : f = 0
    · simp [computePtyOptions, hf]
    · cases hm : mapGet st.ptyMap f with
      | none => simp [computePtyOptions, hf, hm]
      | some t =>
        cases hc : t.ptyTerm.getCwd with
        | none => simp [computePtyOptions, hf, hm, hc]
        | some c =>
          by_cases hce : c = ""
          · simp [computePtyOptions, hf, hm, hc, hce]
          · simp [computePtyOptions, hf, hm, hc, hce]

/-! ## Claims -/

/-- C1: if `PtyConnector.spawn` raises, the error propagates synchronously to
the caller of `createPty`, no session id is allocated (`ptyCounter` is
unchanged) and `ptyMap` is exactly as before the call: the spawn happens
before any mutation, so no partially-registered session remains. -/
theorem createPty_spawn_error
    (spawn : String → List String → PtyOptions → Except Unit Pty)
    (st : PtyManagerState) (wid : Nat) (file : String) (args : List String)
    (env : List (String × String)) (cols rows : Nat) (fid : Option Nat)
    (h : spawn file args (computePtyOptions st env cols rows fid)
      = Except.error ()) :
    (createPty spawn st wid file args env cols rows fid).result
        = Except.error ()
    ∧ (createPty spawn st wid file args env cols rows fid).state = st := by
  refine ⟨?_, ?_⟩ <;> simp [createPty, h]

theorem createPty_spawn_error_witness :
    spawnFail "bash" [] (computePtyOptions initialState [] 80 24 none)
        = Except.error ()
    ∧ ((createPty spawnFail initialState 1 "bash" [] [] 80 24 none).result
          = Except.error ()
        ∧ (createPty spawnFail initialState 1 "bash" [] [] 80 24 none).state
          = initialState) :=
  ⟨rfl, createPty_spawn_error spawnFail initialState 1 "bash" [] [] 80 24 none rfl⟩

/-- C3: `closePty` is idempotent: an absent id is a silent no-op that leaves
the map unchanged, a second close of the same id (after the session was
deregistered by the first) is a no-op as well, and the underlying
`Pty.destroy` runs at most once across the two calls; no error is raised in
any case. -/
theorem closePty_idempotent (st : PtyManagerState) (id : Nat) :
    (mapGet st.ptyMap id = none → closePty st id = (st, []))
    ∧ mapGet (closePty st id).1.ptyMap id = none
    ∧ closePty (closePty st id).1 id = ((closePty st id).1, [])
    ∧ ((closePty st id).2 ++ (closePty (closePty st id).1 id).2).length ≤ 1 := by
  cases hm : mapGet st.ptyMap id with
  | none =>
    have hc : closePty st id = (st, []) := by simp [closePty, hm]
    simp [hc, hm]
  | some t =>
    have hc : closePty st id
        = ({ st with ptyMap := mapDelete st.ptyMap id },
            [Effect.destroy t.ptyTerm.ref]) := by
      simp [closePty, hm]
    have h2 : mapGet (mapDelete st.ptyMap id) id = none :=
      mapGet_delete_self st.ptyMap id
    have hc2 : closePty { st with ptyMap := mapDelete st.ptyMap id } id
        = ({ st with ptyMap := mapDelete st.ptyMap id }, []) := by
      simp [closePty, h2]
    simp [hc, hc2, hm, h2]

theorem closePty_idempotent_witness :
    (mapGet initialState.ptyMap 3 = none ∧ closePty initialState 3 = (initialState, []))
    ∧ closePty (closePty exCwdState 1).1 1 = ((closePty exCwdState 1).1, []) :=
  ⟨⟨rfl, (closePty_idempotent initialState 3).1 rfl⟩,
    (closePty_idempotent exCwdState 1).2.2.1⟩

/-- C5: a `PTY_INPUT` / `PTY_RESIZE` / `PTY_OUTPUT_BUFFER_SIZE` message whose
id is not in the session map only logs a warning — the state is unchanged and
no error is raised — while a message whose id is present invokes the
corresponding pty operation (`write`, `resize`, `permittedDataSize`) with the
message's fields. -/
theorem handlers_unknown_session (st : PtyManagerState) (mi : PtyInputMsg)
    (mr : PtyResizeMsg) (mb : PtyOutputBufferSizeMsg) :
    (mapGet st.ptyMap mi.id = none →
      handlePtyInput st mi = (st, [Effect.warn "handlePtyInput"]))
    ∧ (∀ tup, mapGet st.ptyMap mi.id = some tup →
      handlePtyInput st mi = (st, [Effect.write tup.ptyTerm.ref mi.data]))
    ∧ (mapGet st.ptyMap mr.id = none →
      handlePtyResize st mr = (st, [Effect.warn "handlePtyResize"]))
    ∧ (∀ tup, mapGet st.ptyMap mr.id = some tup →
      handlePtyResize st mr
        = (st, [Effect.resize tup.ptyTerm.ref mr.columns mr.rows]))
    ∧ (mapGet st.ptyMap mb.id = none →
      handlePtyOutputBufferSize st mb
        = (st, [Effect.warn "handlePtyOutputBufferSize"]))
    ∧ (∀ tup, mapGet st.ptyMap mb.id = some tup →
      handlePtyOutputBufferSize st mb
        = (st, [Effect.permittedDataSize tup.ptyTerm.ref mb.size])) := by
  refine ⟨fun h => by simp [handlePtyInput, h],
    fun tup h => by simp [handlePtyInput, h],
    fun h => by simp [handlePtyResize, h],
    fun tup h => by simp [handlePtyResize, h],
    fun h => by simp [handlePtyOutputBufferSize, h],
    fun tup h => by simp [handlePtyOutputBufferSize, h]⟩

theorem handlers_unknown_session_witness :
    (mapGet exCwdState.ptyMap 2 = none
      ∧ handlePtyInput exCwdState ⟨2, "ls"⟩
          = (exCwdState, [Effect.warn "handlePtyInput"]))
    ∧ (mapGet exCwdState.ptyMap 1 = some exCwdTuple
      ∧ handlePtyInput exCwdState ⟨1, "ls"⟩
          = (exCwdState, [Effect.write 3 "ls"])) :=
  ⟨⟨rfl, (handlers_unknown_session exCwdState ⟨2, "ls"⟩ ⟨2, 3, 4⟩ ⟨2, 9⟩).1 rfl⟩,
    ⟨rfl, (handlers_unknown_session exCwdState ⟨1, "ls"⟩ ⟨2, 3, 4⟩ ⟨2, 9⟩).2.1
      exCwdTuple rfl⟩⟩

/-- C7: while the session (in particular its owning connection) is alive,
every chunk the pty delivers via `onData` is forwarded as exactly one
`PTY_OUTPUT` envelope `{id, data}` carrying the session's id and the chunk
unchanged, in delivery order — nothing dropped, duplicated, reordered or
altered. -/
theorem onData_order_preserving (ptyId : Nat) (chunks : List String) :
    onDataSeq false ptyId chunks
      = chunks.map (fun d => Event.sent (Msg.ptyOutput ptyId d)) := by
  induction chunks with
  | nil => rfl
  | cons c rest ih =>
    simp only [onDataSeq, List.map_cons, List.flatten_cons, onDataHandler] at *
    simp [ih]

/-- C10: every tuple `createPty` registers starts in the same bookkeeping
state: `outputBufferSize = 0`, `outputPaused = true`, and the owning window
id is the id of the `BrowserWindow` of the requesting connection. -/
theorem createPty_fresh_tuple
    (spawn : String → List String → PtyOptions → Except Unit Pty)
    (st : PtyManagerState) (wid : Nat) (file : String) (args : List String)
    (env : List (String × String)) (cols rows : Nat) (fid : Option Nat)
    (id : Nat)
    (h : (createPty spawn st wid file args env cols rows fid).result
      = Except.ok id) :
    ∃ pt : Pty,
      mapGet (createPty spawn st wid file args env cols rows fid).state.ptyMap id
        = some ⟨wid, pt, 0, true⟩ := by
  cases hs : spawn file args (computePtyOptions st env cols rows fid) with
  | error e => simp [createPty, hs] at h
  | ok pt =>
    have hid : id = st.ptyCounter + 1 := by
      simp [createPty, hs] at h
      exact h.symm
    refine ⟨pt, ?_⟩
    simp [createPty, hs, hid, mapGet_set_self]

theorem createPty_fresh_tuple_witness :
    (createPty spawnOk initialState 5 "bash" [] [] 80 24 none).result
        = Except.ok 1
    ∧ ∃ pt : Pty,
        mapGet (createPty spawnOk initialState 5 "bash" [] [] 80 24 none).state.ptyMap 1
          = some ⟨5, pt, 0, true⟩ :=
  ⟨rfl, createPty_fresh_tuple spawnOk initialState 5 "bash" [] [] 80 24 none 1 rfl⟩

/-- C4: when `fromPtyId` names a live session (a nonzero id present in the
map) whose `getCwd()` yields a directory (a non-empty string), spawn is
called with `options.cwd` equal to that directory; when `fromPtyId` is
absent, unknown, or the referenced session's `getCwd()` yields none, spawn
is called with no cwd override. -/
theorem createPty_cwd_inherit
    (spawn : String → List String → PtyOptions → Except Unit Pty)
    (st : PtyManagerState) (wid : Nat) (file : String) (args : List String)
    (env : List (String × String)) (cols rows : Nat) :
    (∀ fid tup c, fid ≠ 0 → mapGet st.ptyMap fid = some tup →
      tup.ptyTerm.getCwd = some c → c ≠ "" →
      (createPty spawn st wid file args env cols rows (some fid)).spawnCall.options.cwd
        = some c)
    ∧ (createPty spawn st wid file args env cols rows none).spawnCall.options.cwd
        = none
    ∧ (∀ fid, mapGet st.ptyMap fid = none →
      (createPty spawn st wid file args env cols rows (some fid)).spawnCall.options.cwd
        = none)
    ∧ (∀ fid tup, mapGet st.ptyMap fid = some tup →
      tup.ptyTerm.getCwd = none →
      (createPty spawn st wid file args env cols rows (some fid)).spawnCall.options.cwd
        = none) := by
  refine ⟨?_, ?_, ?_, ?_⟩
  · intro fid tup c hf hm hc hne
    rw [createPty_spawnCall]
    simp [computePtyOptions, hf, hm, hc, hne]
  · rw [createPty_spawnCall]
    rfl
  · intro fid hm
    rw [createPty_spawnCall]
    by_cases hf : fid = 0 <;> simp [computePtyOptions, hf, hm]
  · intro fid tup hm hc
    rw [createPty_spawnCall]
    by_cases hf : fid = 0 <;> simp [computePtyOptions, hf, hm, hc]

theorem createPty_cwd_inherit_witness :
    ((1 : Nat) ≠ 0 ∧ mapGet exCwdState.ptyMap 1 = some exCwdTuple
      ∧ exCwdTuple.ptyTerm.getCwd = some "/home" ∧ "/home" ≠ "")
    ∧ (createPty spawnOk exCwdState 5 "bash" [] [] 80 24 (some 1)).spawnCall.options.cwd
        = some "/home" :=
  ⟨⟨by decide, rfl, rfl, by decide⟩,
    (createPty_cwd_inherit spawnOk exCwdState 5 "bash" [] [] 80 24).1
      1 exCwdTuple "/home" (by decide) rfl rfl (by decide)⟩

/-- C6, counterexample: when the owning connection has already been
destroyed (`sender.isDestroyed()`), the exit handler of a live session sends
no `PTY_CLOSE` envelope at all — the claim's unconditional "a PTY_CLOSE
envelope is sent" fails at this input. -/
theorem onExit_close_not_always_sent :
    Event.sent (Msg.ptyClose 1)
      ∉ (onExitHandler true 1 ⟨7, none⟩
          ⟨[(1, ⟨5, ⟨7, none⟩, 0, true⟩)], 1⟩).1 := by
  decide

/-- C6 (amended): when the pty of a session fires `onExit` and the owning
connection is not destroyed, a `PTY_CLOSE` envelope carrying the session's
id is sent first and the pty is destroyed after it; when the connection is
already destroyed the envelope is skipped but the pty is still destroyed;
in both cases the session id is removed from the map (and the id counter is
untouched). -/
theorem onExitHandler_spec (sd : Bool) (ptyId : Nat) (pt : Pty)
    (st : PtyManagerState) :
    (sd = false → (onExitHandler sd ptyId pt st).1
      = [Event.sent (Msg.ptyClose ptyId), Event.eff (Effect.destroy pt.ref)])
    ∧ (sd = true → (onExitHandler sd ptyId pt st).1
      = [Event.eff (Effect.destroy pt.ref)])
    ∧ mapGet (onExitHandler sd ptyId pt st).2.ptyMap ptyId = none
    ∧ (onExitHandler sd ptyId pt st).2.ptyCounter = st.ptyCounter := by
  refine ⟨fun h => by simp [onExitHandler, h],
    fun h => by simp [onExitHandler, h],
    by simp [onExitHandler, mapGet_delete_self], rfl⟩

theorem onExitHandler_spec_witness :
    (false = false)
    ∧ (onExitHandler false 1 ⟨3, some "/home"⟩ exCwdState).1
        = [Event.sent (Msg.ptyClose 1), Event.eff (Effect.destroy 3)] :=
  ⟨rfl, (onExitHandler_spec false 1 ⟨3, some "/home"⟩ exCwdState).1 rfl⟩

/-- C9, counterexample: `createPty` does not pass the caller's environment
through unchanged — with an empty caller environment, spawn receives a
mapping that contains the entry `TERM = "xterm"` the body added. -/
theorem createPty_env_not_passthrough :
    (createPty spawnOk initialState 1 "bash" [] [] 80 24 none).spawnCall.options.env
        = [("TERM", "xterm")]
    ∧ (createPty spawnOk initialState 1 "bash" [] [] 80 24 none).spawnCall.options.env
        ≠ ([] : List (String × String)) := by
  refine ⟨rfl, ?_⟩
  decide

/-- C9 (amended): the environment handed to `PtyConnector.spawn` is the
caller's full mapping with the single key `TERM` set to `"xterm"`
(overwriting a caller-supplied `TERM` in place, or appending the entry):
`TERM` always reads `"xterm"` in it, and every other key reads exactly what
it reads in the caller's mapping — nothing else is added, removed or
changed. -/
theorem createPty_env_spec
    (spawn : String → List String → PtyOptions → Except Unit Pty)
    (st : PtyManagerState) (wid : Nat) (file : String) (args : List String)
    (env : List (String × String)) (cols rows : Nat) (fid : Option Nat) :
    (createPty spawn st wid file args env cols rows fid).spawnCall.options.env
        = envSet env "TERM" "xterm"
    ∧ envLookup
        (createPty spawn st wid file args env cols rows fid).spawnCall.options.env
        "TERM" = some "xterm"
    ∧ (∀ k, k ≠ "TERM" →
        envLookup
          (createPty spawn st wid file args env cols rows fid).spawnCall.options.env
          k = envLookup env k) := by
  have he : (createPty spawn st wid file args env cols rows fid).spawnCall.options.env
      = envSet env "TERM" "xterm" := by
    rw [createPty_spawnCall]
    exact computePtyOptions_env st env cols rows fid
  refine ⟨he, ?_, ?_⟩
  · rw [he]
    exact envLookup_envSet_self env "TERM" "xterm"
  · intro k hk
    rw [he]
    exact envLookup_envSet_ne env "TERM" "xterm" k hk

theorem createPty_env_spec_witness :
    ("PATH" : String) ≠ "TERM"
    ∧ envLookup
        (createPty spawnOk initialState 1 "sh" [] [("PATH", "/bin")] 80 24 none).spawnCall.options.env
        "PATH" = envLookup [("PATH", "/bin")] "PATH" :=
  ⟨by decide,
    (createPty_env_spec spawnOk initialState 1 "sh" [] [("PATH", "/bin")] 80 24
      none).2.2 "PATH" (by decide)⟩

/-! ## Window cleanup (C2) -/

theorem mapGet_eq_none_iff (m : List (Nat × PtyTuple)) (k : Nat) :
    mapGet m k = none ↔ ∀ p ∈ m, p.1 ≠ k := by
  induction m with
  | nil => simp [mapGet]
  | cons p rest ih =>
    by_cases h : p.1 = k
    · simp [mapGet, h]
    · simp [mapGet, h, ih]

theorem mapGet_of_mem_nodup (m : List (Nat × PtyTuple)) (hn : keysNodup m)
    (p : Nat × PtyTuple) (hp : p ∈ m) : mapGet m p.1 = some p.2 := by
  induction m with
  | nil => cases hp
  | cons q rest ih =>
    have hcons := List.nodup_cons.mp
      (show (q.1 :: rest.map Prod.fst).Nodup from hn)
    rcases List.mem_cons.mp hp with h | h
    · rw [h]
      simp [mapGet]
    · have hne : q.1 ≠ p.1 := by
        intro he
        exact hcons.1 (he ▸ List.mem_map_of_mem Prod.fst h)
      simp [mapGet, hne, ih hcons.2 h]

theorem keysNodup_delete (m : List (Nat × PtyTuple)) (k : Nat)
    (h : keysNodup m) : keysNodup (mapDelete m k) :=
  List.Nodup.sublist (List.Sublist.map Prod.fst (List.filter_sublist m)) h

theorem cleanUpGo_map (w : Nat) :
    ∀ (keys : List Nat) (st : PtyManagerState) (acc : List Effect),
      keysNodup st.ptyMap →
      (cleanUpGo w keys st acc).1.ptyMap
        = st.ptyMap.filter (untouched w keys) := by
  intro keys
  induction keys with
  | nil =>
    intro st acc hn
    have he : ∀ p ∈ st.ptyMap, untouched w [] p = true := fun p _ => by
      simp [untouched]
    exact (List.filter_eq_self.mpr he).symm
  | cons key rest ih =>
    intro st acc hn
    cases hm : mapGet st.ptyMap key with
    | none =>
      have hne : ∀ p ∈ st.ptyMap, p.1 ≠ key := (mapGet_eq_none_iff _ _).mp hm
      simp only [cleanUpGo, hm]
      rw [ih st acc hn]
      refine List.filter_congr ?_
      intro p hp
      simp [untouched, hne p hp]
    | some tup =>
      by_cases hw : tup.windowId = w
      · have hc : closePty st key
            = ({ st with ptyMap := mapDelete st.ptyMap key },
                [Effect.destroy tup.ptyTerm.ref]) := by
          simp [closePty, hm]
        simp only [cleanUpGo, hm, if_pos hw, hc]
        rw [ih _ _ (keysNodup_delete _ _ hn)]
        show (mapDelete st.ptyMap key).filter (untouched w rest)
          = st.ptyMap.filter (untouched w (key :: rest))
        rw [mapDelete, List.filter_filter]
        refine List.filter_congr ?_
        intro p hp
        by_cases hpk : p.1 = key
        · have hpt : p.2 = tup := by
            have hg := mapGet_of_mem_nodup st.ptyMap hn p hp
            rw [hpk, hm] at hg
            exact (Option.some.inj hg).symm
          simp [untouched, hpk, hpt, hw]
        · simp [untouched, hpk]
      · simp only [cleanUpGo, hm, if_neg hw]
        rw [ih st acc hn]
        refine List.filter_congr ?_
        intro p hp
        by_cases hpk : p.1 = key
        · have hpt : p.2 = tup := by
            have hg := mapGet_of_mem_nodup st.ptyMap hn p hp
            rw [hpk, hm] at hg
            exact (Option.some.inj hg).symm
          simp [untouched, hpk, hpt, hw]
        · simp [untouched, hpk]

theorem cleanUpGo_counter (w : Nat) :
    ∀ (keys : List Nat) (st : PtyManagerState) (acc : List Effect),
      (cleanUpGo w keys st acc).1.ptyCounter = st.ptyCounter := by
  intro keys
  induction keys with
  | nil => intro st acc; rfl
  | cons key rest ih =>
    intro st acc
    cases hm : mapGet st.ptyMap key with
    | none => simp [cleanUpGo, hm, ih]
    | some tup =>
      by_cases hw : tup.windowId = w
      · have hc : closePty st key
            = ({ st with ptyMap := mapDelete st.ptyMap key },
                [Effect.destroy tup.ptyTerm.ref]) := by
          simp [closePty, hm]
        simp [cleanUpGo, hm, hw, hc, ih]
      · simp [cleanUpGo, hm, hw, ih]

theorem cleanUpGo_effects (w : Nat) :
    ∀ (keys : List Nat) (st : PtyManagerState) (acc : List Effect),
      keysNodup st.ptyMap → keys.Nodup →
      (cleanUpGo w keys st acc).2
        = acc ++ keys.filterMap (destroyEffectAt st.ptyMap w) := by
  intro keys
  induction keys with
  | nil =>
    intro st acc hn hk
    simp [cleanUpGo]
  | cons key rest ih =>
    intro st acc hn hk
    have hk' : rest.Nodup := (List.nodup_cons.mp hk).2
    have hknot : key ∉ rest := (List.nodup_cons.mp hk).1
    cases hm : mapGet st.ptyMap key with
    | none =>
      simp only [cleanUpGo, hm]
      rw [ih st acc hn hk']
      simp [destroyEffectAt, hm, List.filterMap_cons]
    | some tup =>
      by_cases hw : tup.windowId = w
      · have hc : closePty st key
            = ({ st with ptyMap := mapDelete st.ptyMap key },
                [Effect.destroy tup.ptyTerm.ref]) := by
          simp [closePty, hm]
        simp only [cleanUpGo, hm, if_pos hw, hc]
        rw [ih _ _ (keysNodup_delete _ _ hn) hk']
        have hcong : rest.filterMap (destroyEffectAt (mapDelete st.ptyMap key) w)
            = rest.filterMap (destroyEffectAt st.ptyMap w) := by
          refine List.filterMap_congr ?_
          intro k hkr
          have hne : k ≠ key := fun he => hknot (he ▸ hkr)
          simp [destroyEffectAt, mapGet_delete_ne st.ptyMap key k hne]
        show (acc ++ [Effect.destroy tup.ptyTerm.ref])
            ++ rest.filterMap (destroyEffectAt (mapDelete st.ptyMap key) w)
          = acc ++ (key :: rest).filterMap (destroyEffectAt st.ptyMap w)
        rw [hcong]
        simp [destroyEffectAt, hm, hw, List.filterMap_cons]
      · simp only [cleanUpGo, hm, if_neg hw]
        rw [ih st acc hn hk']
        simp [destroyEffectAt, hm, hw, List.filterMap_cons]

theorem keys_filterMap_destroy (w : Nat) :
    ∀ m : List (Nat × PtyTuple), keysNodup m →
      (m.map Prod.fst).filterMap (destroyEffectAt m w)
        = (m.filter (fun p => decide (p.2.windowId = w))).map
            (fun p => Effect.destroy p.2.ptyTerm.ref) := by
  intro m
  induction m with
  | nil => intro _; rfl
  | cons q rest ih =>
    intro hn
    have hcons := List.nodup_cons.mp
      (show (q.1 :: rest.map Prod.fst).Nodup from hn)
    have hcong : (rest.map Prod.fst).filterMap (destroyEffectAt (q :: rest) w)
        = (rest.map Prod.fst).filterMap (destroyEffectAt rest w) := by
      refine List.filterMap_congr ?_
      intro k hk
      have hne : q.1 ≠ k := fun he => hcons.1 (he ▸ hk)
      simp [destroyEffectAt, mapGet, hne]
    have hhead : destroyEffectAt (q :: rest) w q.1
        = if q.2.windowId = w
          then some (Effect.destroy q.2.ptyTerm.ref) else none := by
      simp [destroyEffectAt, mapGet]
    simp only [List.map_cons, List.filterMap_cons, hhead]
    rw [hcong, ih hcons.2]
    by_cases hw : q.2.windowId = w
    · simp [hw, List.filter_cons]
    · simp [hw, List.filter_cons]

/-- C2: `cleanUpPtyWindow w` destroys exactly the sessions whose recorded
owning window id is `w` (one destroy per such session, in map order) and
removes them from the map, while every session owned by another window
stays in the map with its tuple unchanged; afterwards no session owned by
`w` remains, and the id counter is untouched. -/
theorem cleanUpPtyWindow_spec (st : PtyManagerState) (w : Nat)
    (h : keysNodup st.ptyMap) :
    (cleanUpPtyWindow st w).1.ptyMap
        = st.ptyMap.filter (fun p => decide (p.2.windowId ≠ w))
    ∧ (cleanUpPtyWindow st w).2
        = (st.ptyMap.filter (fun p => decide (p.2.windowId = w))).map
            (fun p => Effect.destroy p.2.ptyTerm.ref)
    ∧ (∀ p ∈ (cleanUpPtyWindow st w).1.ptyMap, p.2.windowId ≠ w)
    ∧ (cleanUpPtyWindow st w).1.ptyCounter = st.ptyCounter := by
  have hmap : (cleanUpPtyWindow st w).1.ptyMap
      = st.ptyMap.filter (fun p => decide (p.2.windowId ≠ w)) := by
    rw [cleanUpPtyWindow, cleanUpGo_map w _ st [] h]
    refine List.filter_congr ?_
    intro p hp
    have hmem : p.1 ∈ st.ptyMap.map Prod.fst := List.mem_map_of_mem Prod.fst hp
    simp [untouched, hmem]
  refine ⟨hmap, ?_, ?_, ?_⟩
  · rw [cleanUpPtyWindow, cleanUpGo_effects w _ st [] h h, List.nil_append]
    exact keys_filterMap_destroy w st.ptyMap h
  · intro p hp
    rw [hmap] at hp
    have hmem := (List.mem_filter.mp hp).2
    simpa using hmem
  · rw [cleanUpPtyWindow]
    exact cleanUpGo_counter w _ st []

theorem cleanUpPtyWindow_spec_witness :
    keysNodup exTwoWinState.ptyMap
    ∧ (cleanUpPtyWindow exTwoWinState 5).1.ptyMap
        = [(2, ⟨6, ⟨11, none⟩, 3, false⟩)]
    ∧ (cleanUpPtyWindow exTwoWinState 5).2
        = [Effect.destroy 10, Effect.destroy 12] := by
  refine ⟨by decide, ?_, ?_⟩
  · rw [(cleanUpPtyWindow_spec exTwoWinState 5 (by decide)).1]
    rfl
  · rw [(cleanUpPtyWindow_spec exTwoWinState 5 (by decide)).2.1]
    rfl

theorem closePty_counter (st : PtyManagerState) (id : Nat) :
    (closePty st id).1.ptyCounter = st.ptyCounter := by
  cases hm : mapGet st.ptyMap id <;> simp [closePty, hm]

theorem handlePtyInput_state (st : PtyManagerState) (m : PtyInputMsg) :
    (handlePtyInput st m).1 = st := by
  cases hm : mapGet st.ptyMap m.id <;> simp [handlePtyInput, hm]

theorem handlePtyResize_state (st : PtyManagerState) (m : PtyResizeMsg) :
    (handlePtyResize st m).1 = st := by
  cases hm : mapGet st.ptyMap m.id <;> simp [handlePtyResize, hm]

theorem handlePtyOutputBufferSize_state (st : PtyManagerState)
    (m : PtyOutputBufferSizeMsg) :
    (handlePtyOutputBufferSize st m).1 = st := by
  cases hm : mapGet st.ptyMap m.id <;> simp [handlePtyOutputBufferSize, hm]

theorem handlePtyCloseRequest_counter (st : PtyManagerState) (id : Nat) :
    (handlePtyCloseRequest st id).1.ptyCounter = st.ptyCounter := by
  cases hm : mapGet st.ptyMap id with
  | none => simp [handlePtyCloseRequest, hm]
  | some t =>
    simp only [handlePtyCloseRequest, hm]
    exact closePty_counter st id

theorem createPty_ok_counter
    (spawn : String → List String → PtyOptions → Except Unit Pty)
    (st : PtyManagerState) (wid : Nat) (file : String) (args : List String)
    (env : List (String × String)) (cols rows : Nat) (fid : Option Nat)
    (id : Nat)
    (h : (createPty spawn st wid file args env cols rows fid).result
      = Except.ok id) :
    id = st.ptyCounter + 1
    ∧ (createPty spawn st wid file args env cols rows fid).state.ptyCounter
        = id := by
  cases hs : spawn file args (computePtyOptions st env cols rows fid) with
  | error e => simp [createPty, hs] at h
  | ok pt =>
    have hid : id = st.ptyCounter + 1 := by
      simp [createPty, hs] at h
      exact h.symm
    exact ⟨hid, by simp [createPty, hs, hid]⟩

theorem runOp_counter_mono
    (spawn : String → List String → PtyOptions → Except Unit Pty)
    (st : PtyManagerState) (op : Op) :
    st.ptyCounter ≤ (runOp spawn st op).1.ptyCounter := by
  cases op with
  | create wid file args env cols rows fid =>
    cases hr : (createPty spawn st wid file args env cols rows fid).result with
    | error e => simp [runOp, hr]
    | ok id =>
      have hc := createPty_ok_counter spawn st wid file args env cols rows fid
        id hr
      simp only [runOp, hr]
      rw [hc.2, hc.1]
      exact Nat.le_succ _
  | close id => simp [runOp, closePty_counter]
  | cleanUp wid => simp [runOp, cleanUpPtyWindow, cleanUpGo_counter]
  | input m => simp [runOp, handlePtyInput_state]
  | resize m => simp [runOp, handlePtyResize_state]
  | outputBufferSize m => simp [runOp, handlePtyOutputBufferSize_state]
  | closeRequest id => simp [runOp, handlePtyCloseRequest_counter]

theorem runOp_some_id
    (spawn : String → List String → PtyOptions → Except Unit Pty)
    (st : PtyManagerState) (op : Op) (i : Nat)
    (h : (runOp spawn st op).2 = some i) :
    i = st.ptyCounter + 1 ∧ (runOp spawn st op).1.ptyCounter = i := by
  cases op with
  | create wid file args env cols rows fid =>
    cases hr : (createPty spawn st wid file args env cols rows fid).result with
    | error e => simp [runOp, hr] at h
    | ok id =>
      have hc := createPty_ok_counter spawn st wid file args env cols rows fid
        id hr
      have hi : id = i := by simpa [runOp, hr] using h
      constructor
      · rw [← hi]
        exact hc.1
      · rw [← hi]
        simp only [runOp, hr]
        exact hc.2
  | close id => simp [runOp] at h
  | cleanUp wid => simp [runOp] at h
  | input m => simp [runOp] at h
  | resize m => simp [runOp] at h
  | outputBufferSize m => simp [runOp] at h
  | closeRequest id => simp [runOp] at h

theorem runOps_counter_mono
    (spawn : String → List String → PtyOptions → Except Unit Pty) :
    ∀ (ops : List Op) (st : PtyManagerState),
      st.ptyCounter ≤ (runOps spawn st ops).1.ptyCounter := by
  intro ops
  induction ops with
  | nil => intro st; exact Nat.le_refl _
  | cons op rest ih =>
    intro st
    have h1 := runOp_counter_mono spawn st op
    have h2 := ih (runOp spawn st op).1
    cases hr : (runOp spawn st op).2 with
    | some id =>
      simp only [runOps, hr]
      exact le_trans h1 h2
    | none =>
      simp only [runOps, hr]
      exact le_trans h1 h2

theorem runOps_ids_gt
    (spawn : String → List String → PtyOptions → Except Unit Pty) :
    ∀ (ops : List Op) (st : PtyManagerState) (id : Nat),
      id ∈ (runOps spawn st ops).2 → st.ptyCounter < id := by
  intro ops
  induction ops with
  | nil =>
    intro st id h
    simp [runOps] at h
  | cons op rest ih =>
    intro st id h
    cases hr : (runOp spawn st op).2 with
    | none =>
      simp only [runOps, hr] at h
      exact lt_of_le_of_lt (runOp_counter_mono spawn st op) (ih _ id h)
    | some i =>
      simp only [runOps, hr] at h
      have hio := runOp_some_id spawn st op i hr
      rcases List.mem_cons.mp h with he | hm
      · omega
      · have := ih _ id hm
        omega

theorem runOps_chain
    (spawn : String → List String → PtyOptions → Except Unit Pty) :
    ∀ (ops : List Op) (st : PtyManagerState),
      List.Chain' (· < ·) (runOps spawn st ops).2 := by
  intro ops
  induction ops with
  | nil =>
    intro st
    simp [runOps]
  | cons op rest ih =>
    intro st
    cases hr : (runOp spawn st op).2 with
    | none =>
      simp only [runOps, hr]
      exact ih _
    | some i =>
      simp only [runOps, hr]
      rw [List.chain'_cons']
      refine ⟨?_, ih _⟩
      intro y hy
      have hmem := List.mem_of_mem_head? hy
      have hgt := runOps_ids_gt spawn rest (runOp spawn st op).1 y hmem
      have hio := runOp_some_id spawn st op i hr
      omega

/-- C8: over any sequence of operations, the ids returned by the successful
`createPty` calls are strictly increasing positive integers (so all
distinct); each successful call returns `ptyCounter + 1`, leaves the counter
equal to the returned id, registers the new session under exactly that id,
and `handlePtyCreate`'s `PTY_CREATED` reply carries that same id. -/
theorem session_ids_monotone
    (spawn : String → List String → PtyOptions → Except Unit Pty)
    (st : PtyManagerState) (ops : List Op) :
    List.Chain' (· < ·) (runOps spawn st ops).2
    ∧ (∀ i ∈ (runOps spawn st ops).2, 0 < i)
    ∧ (∀ wid file args env cols rows fid id,
        (createPty spawn st wid file args env cols rows fid).result
            = Except.ok id →
          id = st.ptyCounter + 1
          ∧ (createPty spawn st wid file args env cols rows fid).state.ptyCounter
              = id
          ∧ (mapGet (createPty spawn st wid file args env cols rows fid).state.ptyMap
              id).isSome = true)
    ∧ (∀ wid msg out, handlePtyCreate spawn st wid msg = Except.ok out →
        (createPty spawn st wid msg.command msg.args msg.env msg.columns
          msg.rows msg.fromPtyId).result = Except.ok out.1.id) := by
  refine ⟨runOps_chain spawn ops st, ?_, ?_, ?_⟩
  · intro i hi
    have := runOps_ids_gt spawn ops st i hi
    omega
  · intro wid file args env cols rows fid id h
    have hc := createPty_ok_counter spawn st wid file args env cols rows fid
      id h
    refine ⟨hc.1, hc.2, ?_⟩
    cases hs : spawn file args (computePtyOptions st env cols rows fid) with
    | error e => simp [createPty, hs] at h
    | ok pt => simp [createPty, hs, hc.1, mapGet_set_self]
  · intro wid msg out hout
    cases hr : (createPty spawn st wid msg.command msg.args msg.env msg.columns
        msg.rows msg.fromPtyId).result with
    | error e => simp [handlePtyCreate, hr] at hout
    | ok id =>
      obtain ⟨rep, st'⟩ := out
      simp [handlePtyCreate, hr] at hout
      rw [← hout.1]

theorem session_ids_monotone_witness :
    ((createPty spawnOk initialState 1 "bash" [] [] 80 24 none).result
        = Except.ok 1)
    ∧ ((1 : Nat) = initialState.ptyCounter + 1
        ∧ (createPty spawnOk initialState 1 "bash" [] [] 80 24 none).state.ptyCounter
            = 1
        ∧ (mapGet (createPty spawnOk initialState 1 "bash" [] [] 80 24
            none).state.ptyMap 1).isSome = true) :=
  ⟨rfl, (session_ids_monotone spawnOk initialState exOps).2.2.1
    1 "bash" [] [] 80 24 none 1 rfl⟩
